import Mathlib

/-!
Shallow embedding of the jedi inference-engine excerpt, used to check the
natural-language specification against the code.

Embedded modules:
* `jedi/evaluate/precedence.py` — the operator/precedence evaluator
  (`calculate`, `_element_calculate`, `factor_calculate`, `literals_to_types`).
* `jedi/evaluate/gradual/conversion.py` — the gradual-typing resolver
  (`stub_to_actual_context_set`, `to_stub`, the tolerant wrappers).
* `jedi/evaluate/compiled/context.py` — the compiled-object filter
  (`CompiledObjectFilter._get`, `EmptyCompiledName`) and the
  `is_compiled`/`is_stub` reports of `CompiledObject`.

`ContextSet` (jedi/evaluate/base_context.py) is not part of the excerpt; per
the spec (§3, §4.1) it is an unordered, deduplicated collection with
identity-based membership, union, and `from_sets` aggregation.  It is modelled
here as a `List` whose union deduplicates, keeping first-insertion order (the
iteration order of such a set is some fixed enumeration of its elements, which
the list order represents).
-/

namespace Jedi

/-- Modelled from the spec: `ContextSet` union (`|`), jedi/evaluate/base_context.py
is not in the excerpt.  Deduplicating append: members of `b` already present in
`a` are not re-added. -/
def cunion {α : Type} [DecidableEq α] (a b : List α) : List α :=
  a ++ b.filter (fun c => decide (¬ c ∈ a))

/-- Modelled from the spec: `ContextSet.from_sets` (§4.1) — aggregate a sequence of
sets into one deduplicated union; an empty input yields the empty set. -/
def from_sets {α : Type} [DecidableEq α] (sets : List (List α)) : List α :=
  sets.foldl cunion []

/-- Concatenation of a list of lists (the plain Python nested generator, before
any `ContextSet` deduplication is applied). -/
def listFlat {α : Type} (l : List (List α)) : List α :=
  l.foldr (fun a b => a ++ b) []

/-- Modelled from the spec: turning an iterator into a `ContextSet`
(`iterator_to_context_set`) deduplicates the yielded elements. -/
def dedup {α : Type} [DecidableEq α] (l : List α) : List α :=
  l.foldl (fun acc c => cunion acc [c]) []

namespace Precedence

/-- A native (CPython) literal value held by a `CompiledObject`: the `.obj`
payload.  The excerpt's operator rules only ever read `.obj` of literal
numbers and strings; CPython `bool` is a subclass of `int` and therefore
counts as a number for `isinstance(obj, (int, float))`.  `float` literals are
outside this model (no claim exercises them). -/
inductive Obj where
  | int (n : Int)
  | str (s : String)
  | bool (b : Bool)
deriving DecidableEq

/-- Is the native value a number for `isinstance(obj, (int, float))`?
(`bool` is a subclass of `int` in CPython.) -/
def Obj.isNum : Obj → Bool
  | .int _ => true
  | .bool _ => true
  | .str _ => false

/-- The integer a native number stands for (`True` is `1`, `False` is `0`).
Only read under `isNum` guards. -/
def Obj.asInt : Obj → Int
  | .int n => n
  | .bool b => if b then 1 else 0
  | .str _ => 0

/-- `typ.name.string_name` of a compiled literal: the name of its builtin
class, resolved through the external access-handle machinery.  Modelled from
the spec: a literal integer widens to an `int` instance, a string to `str`
(§4.5 `literals_to_types`). -/
def Obj.typeName : Obj → String
  | .int _ => "int"
  | .str _ => "str"
  | .bool _ => "bool"

/-- One possible meaning of an expression, restricted to the shapes the
precedence evaluator distinguishes:
* `compiled o` — a `CompiledObject` wrapping a native literal `o`;
* `seq t` — an `iterable.AbstractSequence` with `array_type = t`;
* `merged l r` — an `iterable.MergedArray` over the two operands (a
  merged-sequence marker, not an eagerly concatenated sequence);
* `inst cls truth` — a `CompiledInstance` of builtin class `cls` (as produced
  by `cls.execute_evaluated()`); `truth` is its `py__bool__()` report;
* `other id truth` — any other context; `truth` is its `py__bool__()` report.
`py__bool__` of non-compiled contexts is decided by machinery outside the
excerpt, so the model carries it as data (`none` = uncertain). -/
inductive PContext where
  | compiled (o : Obj)
  | seq (arrayType : String)
  | merged (l r : PContext)
  | inst (clsName : String) (truth : Option Bool)
  | other (id : Nat) (truth : Option Bool)
deriving DecidableEq

/-- The `.obj` payload of a compiled object; only read under guards that force
the context to be `compiled`. -/
def PContext.objOf : PContext → Obj
  | .compiled o => o
  | _ => .int 0

/-- `_is_number(obj)`: a `CompiledObject` whose `.obj` is an `int` or `float`. -/
def _is_number : PContext → Bool
  | .compiled o => o.isNum
  | _ => false

/-- `is_string(obj)`: a `CompiledObject` whose `.obj` is a string. -/
def is_string : PContext → Bool
  | .compiled (.str _) => true
  | _ => false

/-- `is_literal(obj)`. -/
def is_literal (c : PContext) : Bool :=
  _is_number c || is_string c

/-- `isinstance(obj, iterable.AbstractSequence)`.  A `MergedArray` is itself a
sequence (the spec calls it a merged-sequence marker). -/
def isAbstractSequence : PContext → Bool
  | .seq _ => true
  | .merged _ _ => true
  | _ => false

/-- `_is_tuple(obj)`: an `AbstractSequence` with `array_type == 'tuple'`.
(The `array_type` of a `MergedArray` is established outside the excerpt and is
not modelled.) -/
def _is_tuple : PContext → Bool
  | .seq t => t == "tuple"
  | _ => false

/-- `_is_list(obj)`: an `AbstractSequence` with `array_type == 'list'`. -/
def _is_list : PContext → Bool
  | .seq t => t == "list"
  | _ => false

/-- `py__bool__()` of a context.  Compiled objects report the truthiness of
their native value (`access_handle.py__bool__()`); contexts without an
override report `True` (the base `Context` default); instances and other
contexts carry their report explicitly, `none` meaning uncertainty. -/
def PContext.py__bool__ : PContext → Option Bool
  | .compiled (.int n) => some (decide (n ≠ 0))
  | .compiled (.str s) => some (decide (s ≠ ""))
  | .compiled (.bool b) => some b
  | .seq _ => some true
  | .merged _ _ => some true
  | .inst _ t => t
  | .other _ t => t

/-- `cls.execute_evaluated()` for a builtin class obtained by
`builtin_from_name`: one value-free `CompiledInstance` of that class
(its truth value is not determined by a value, hence uncertain). -/
def execute_evaluated (clsName : String) : List PContext :=
  [PContext.inst clsName none]

/-- `literals_to_types(evaluator, result)`: widen every literal context to a
value-free instance of its class; pass every other context through. -/
def literals_to_types (result : List PContext) : List PContext :=
  result.foldl
    (fun new_result typ =>
      if is_literal typ then
        cunion new_result (execute_evaluated typ.objOf.typeName)
      else
        cunion new_result [typ])
    []

/-- Python `+` on the native payloads (`left.obj + right.obj`); only evaluated
under the number/number or string/string guards of `_element_calculate`. -/
def pyAdd (a b : Obj) : Obj :=
  if a.isNum && b.isNum then .int (a.asInt + b.asInt)
  else
    match a, b with
    | .str s, .str t => .str (s ++ t)
    | _, _ => a

/-- Python `-` on the native payloads; only evaluated when both are numbers. -/
def pySub (a b : Obj) : Obj :=
  .int (a.asInt - b.asInt)

/-- `COMPARISON_OPERATORS`: the syntax keys of the comparison table. -/
def COMPARISON_OPERATORS : List String :=
  ["==", "!=", "is", "is not", "<", "<=", ">", ">="]

/-- Python `==` on two native literal values: numbers compare by value
(`True == 1`), strings by content, a number and a string are unequal. -/
def objEq (a b : Obj) : Bool :=
  if a.isNum && b.isNum then a.asInt == b.asInt
  else
    match a, b with
    | .str s, .str t => s == t
    | _, _ => false

/-- Evaluate an ordering operator from the strict-less and equality facts of a
totally ordered native kind. -/
def ordCmp (operator : String) (lt eq : Bool) : Bool :=
  if operator = "<" then lt
  else if operator = "<=" then lt || eq
  else if operator = ">" then !(lt || eq)
  else !lt

/-- `operation(left.obj, right.obj)` for a comparison operator on two native
literal values: `some b` when CPython returns the boolean `b`, `none` when it
raises `TypeError` (ordering a number against a string).  Object identity of
the literals behind cached access handles is modelled as structural
equality. -/
def objCompare (operator : String) (a b : Obj) : Option Bool :=
  if operator = "==" then some (objEq a b)
  else if operator = "!=" then some (!objEq a b)
  else if operator = "is" then some (a == b)
  else if operator = "is not" then some (!(a == b))
  else if a.isNum && b.isNum then
    some (ordCmp operator (decide (a.asInt < b.asInt)) (a.asInt == b.asInt))
  else
    match a, b with
    | .str s, .str t => some (ordCmp operator (decide (s < t)) (s == t))
    | _, _ => none

/-- `operation(left, right)` as `_element_calculate` performs it: when both
operands are `CompiledObject`s their native `.obj` payloads are compared,
otherwise the jedi wrapper objects themselves are compared — plain objects
support identity-based `==`/`!=`/`is`/`is not` (distinct wrapper objects are
modelled by distinct values) and raise `TypeError` on ordering.  `none` models
the raised `TypeError`. -/
def nativeCompare (operator : String) (l r : PContext) : Option Bool :=
  match l, r with
  | .compiled a, .compiled b => objCompare operator a b
  | a, b =>
    if operator = "==" then some (decide (a = b))
    else if operator = "!=" then some (!decide (a = b))
    else if operator = "is" then some (decide (a = b))
    else if operator = "is not" then some (!decide (a = b))
    else none

/-- A static-analysis diagnostic recorded by `analysis.add` (the message text
interpolates reprs through external machinery and is not modelled). -/
structure Diag where
  kind : String
  operator : String
deriving DecidableEq

/-- The `'type-error-operation'` (incompatible operand types) diagnostic. -/
def typeErrorDiag (operator : String) : Diag :=
  ⟨"type-error-operation", operator⟩

/-- The local `check(obj)` helper: a `CompiledInstance` whose class name is
`'int'` or `'float'` (an uncertain numeric instance). -/
def check : PContext → Bool
  | .inst n _ => n == "int" || n == "float"
  | _ => false

/-- `_element_calculate(evaluator, context, left, operator, right)`.  Returns
the context set together with the diagnostics emitted through
`analysis.add` during the call. -/
def _element_calculate (left : PContext) (operator : String) (right : PContext) :
    List PContext × List Diag :=
  let l_is_num := _is_number left
  let r_is_num := _is_number right
  let fallthrough : List PContext × List Diag :=
    if (operator = "+" || operator = "-") && (l_is_num != r_is_num)
        && !(check left || check right) then
      (cunion [left] [right], [typeErrorDiag operator])
    else
      (cunion [left] [right], [])
  if operator = "*" then
    if isAbstractSequence left || is_string left then ([left], [])
    else if isAbstractSequence right || is_string right then ([right], [])
    else fallthrough
  else if operator = "+" then
    if (l_is_num && r_is_num) || (is_string left && is_string right) then
      ([.compiled (pyAdd left.objOf right.objOf)], [])
    else if (_is_tuple left && _is_tuple right) || (_is_list left && _is_list right) then
      ([.merged left right], [])
    else fallthrough
  else if operator = "-" then
    if l_is_num && r_is_num then
      ([.compiled (pySub left.objOf right.objOf)], [])
    else fallthrough
  else if operator = "%" then ([left], [])
  else if COMPARISON_OPERATORS.contains operator then
    match nativeCompare operator left right with
    | some b => ([.compiled (.bool b)], [])
    | none => (cunion [.compiled (.bool true)] [.compiled (.bool false)], [])
  else if operator = "in" then ([], [])
  else fallthrough

/-- The condition under which `_element_calculate` reaches its static-analysis
fallthrough, read off the source's branch structure: no early `return` fires,
i.e. no pairwise rule applies to the operand pair.  `*` returns early on a
sequence/string operand on either side; `+` on two numbers, two strings, or
two tuples/two lists; `-` on two numbers; `%`, every comparison operator and
`in` always return early; any other operator always falls through. -/
def no_rule_applies (left : PContext) (operator : String) (right : PContext) : Bool :=
  if operator = "*" then
    !(isAbstractSequence left || is_string left)
      && !(isAbstractSequence right || is_string right)
  else if operator = "+" then
    !((_is_number left && _is_number right) || (is_string left && is_string right))
      && !((_is_tuple left && _is_tuple right) || (_is_list left && _is_list right))
  else if operator = "-" then
    !(_is_number left && _is_number right)
  else if operator = "%" then false
  else if COMPARISON_OPERATORS.contains operator then false
  else if operator = "in" then false
  else true

/-- `calculate(evaluator, context, left_contexts, operator, right_contexts)`.
A `None` operand (an illegal slice) behaves exactly like the empty set: both
are falsy and `left_contexts or NO_CONTEXTS` normalizes `None` to the empty
set, so the model uses the empty list for it.  The second component collects
the diagnostics emitted by the pairwise evaluations. -/
def calculate (left_contexts : List PContext) (operator : String)
    (right_contexts : List PContext) : List PContext × List Diag :=
  if left_contexts = [] ∨ right_contexts = [] then
    (literals_to_types (cunion left_contexts right_contexts), [])
  else if 6 < left_contexts.length * right_contexts.length then
    (literals_to_types (cunion left_contexts right_contexts), [])
  else
    let pairResults :=
      listFlat (left_contexts.map (fun left =>
        right_contexts.map (fun right => _element_calculate left operator right)))
    (from_sets (pairResults.map Prod.fst), listFlat (pairResults.map Prod.snd))

/-- The generator body of `factor_calculate`: iterate the operands in their
enumeration order; `-` yields the negated native number of a literal number
(and nothing for other operands); `not` yields the negated known truth value
and STOPS the whole generator (a bare `return`) on an uncertain one; every
other operator yields the operand unchanged. -/
def factor_calculate_list : List PContext → String → List PContext
  | [], _ => []
  | typ :: rest, operator =>
    if operator = "-" then
      (if _is_number typ then [PContext.compiled (.int (-typ.objOf.asInt))] else [])
        ++ factor_calculate_list rest operator
    else if operator = "not" then
      match typ.py__bool__ with
      | none => []
      | some value => PContext.compiled (.bool (!value)) :: factor_calculate_list rest operator
    else
      typ :: factor_calculate_list rest operator

/-- `factor_calculate(evaluator, types, operator)`, with the
`@iterator_to_context_set` wrapper collecting the yields into a set. -/
def factor_calculate (types : List PContext) (operator : String) : List PContext :=
  dedup (factor_calculate_list types operator)

end Precedence

namespace Conversion

/-- The interface `jedi/evaluate/gradual/conversion.py` consumes.  Contexts
and names are identified by `Nat` handles; the fields supply the operations
the conversion code calls on them.  Operations implemented outside the excerpt
(attribute lookup, the stub-loading subsystem, the non-stub companion table)
are carried as abstract functions of the world. -/
structure World where
  /-- `context.get_root_context()`. -/
  get_root_context : Nat → Nat
  /-- `context.is_stub()` (also used on root modules). -/
  is_stub : Nat → Bool
  /-- `context.is_instance()`. -/
  is_instance : Nat → Bool
  /-- `context.py__class__()`. -/
  py_class : Nat → Nat
  /-- `context.get_qualified_names()` (`none` models Python `None`). -/
  get_qualified_names : Nat → Option (List String)
  /-- `context.is_bound_method()`. -/
  is_bound_method : Nat → Bool
  /-- `context.is_class()`. -/
  is_class : Nat → Bool
  /-- `context.is_compiled()`. -/
  is_compiled : Nat → Bool
  /-- `stub_module.non_stub_context_set` — the side table mapping a stub
  module to the actual modules it describes. -/
  non_stub_context_set : Nat → List Nat
  /-- `context.execute_evaluated()`. -/
  execute_evaluated : Nat → List Nat
  /-- Per-context attribute lookup behind `ContextSet.py__getattribute__`. -/
  getattr : Nat → String → List Nat
  /-- Per-context name lookup behind `py__getattribute__(..., is_goto=True)`. -/
  goto : Nat → String → List Nat
  /-- `context.name`. -/
  ctx_name : Nat → Nat
  /-- `name.get_root_context()`. -/
  name_root : Nat → Nat
  /-- `name.get_qualified_names()`. -/
  name_qualified : Nat → Option (List String)
  /-- `_try_to_load_stub_cached(...)` — the stub-loading subsystem (§6),
  `jedi/evaluate/gradual/typeshed.py` is not in the excerpt. -/
  try_to_load_stub : Nat → Option Nat

/-- Modelled from the spec: `ContextSet.py__getattribute__(name)`
(jedi/evaluate/base_context.py is not in the excerpt).  Per §4.1, set-level
operations aggregate the per-element results with `from_sets`. -/
def set_getattr (w : World) (cs : List Nat) (name : String) : List Nat :=
  from_sets (cs.map (fun c => w.getattr c name))

/-- Modelled from the spec: `ContextSet.py__getattribute__(name, is_goto=True)`
— the same aggregation, returning names instead of contexts. -/
def set_goto (w : World) (cs : List Nat) (name : String) : List Nat :=
  from_sets (cs.map (fun c => w.goto c name))

/-- `_infer_from_stub(stub_module, qualified_names, ignore_compiled)`: start
from the non-stub companion set of the stub module (dropping compiled members
when `ignore_compiled`), then walk the qualified names attribute by
attribute. -/
def _infer_from_stub (w : World) (stub_module : Nat) (qualified_names : List String)
    (ignore_compiled : Bool) : List Nat :=
  let non_stubs := w.non_stub_context_set stub_module
  let non_stubs :=
    if ignore_compiled then non_stubs.filter (fun c => !(w.is_compiled c))
    else non_stubs
  qualified_names.foldl (fun acc name => set_getattr w acc name) non_stubs

/-- `stub_to_actual_context_set(stub_context, ignore_compiled)`.  A bound
method always has a non-empty qualified-name list (the source indexes
`qualified_names[-1]`), so the peeled method name is read with a default that
is never used on the source's inputs. -/
def stub_to_actual_context_set (w : World) (stub_context : Nat)
    (ignore_compiled : Bool) : List Nat :=
  let stub_module := w.get_root_context stub_context
  if !(w.is_stub stub_module) then [stub_context]
  else
    let was_instance := w.is_instance stub_context
    let stub_context2 := if was_instance then w.py_class stub_context else stub_context
    match w.get_qualified_names stub_context2 with
    | none => []
    | some qualified_names =>
      let was_bound_method := w.is_bound_method stub_context2
      let method_name := qualified_names.getLastD ""
      let qualified_names2 :=
        if was_bound_method then qualified_names.dropLast else qualified_names
      let was_instance2 := was_instance || was_bound_method
      let contexts := _infer_from_stub w stub_module qualified_names2 ignore_compiled
      let contexts2 :=
        if was_instance2 then
          from_sets ((contexts.filter (fun c => w.is_class c)).map
            (fun c => w.execute_evaluated c))
        else contexts
      if was_bound_method then set_getattr w contexts2 method_name else contexts2

/-- `try_stubs_to_actual_context_set(stub_contexts, prefer_stub_to_compiled)`:
per element, `stub_to_actual_context_set(...) or ContextSet([stub_context])`
(the empty set is falsy), aggregated with `from_sets`. -/
def try_stubs_to_actual_context_set (w : World) (stub_contexts : List Nat)
    (prefer_stub_to_compiled : Bool) : List Nat :=
  from_sets (stub_contexts.map (fun stub_context =>
    let r := stub_to_actual_context_set w stub_context prefer_stub_to_compiled
    if r = [] then [stub_context] else r))

/-- The body of `try_stub_to_actual_names` for one name (the generator yields
of one loop iteration).  Mirrors the source control flow: a non-stub module
yields the name back; otherwise resolve the qualified prefix through
`_infer_from_stub`, look the last segment up as a goto name, and fall back to
the original stub name whenever nothing was found. -/
def _stub_name_to_actual_list (w : World) (prefer_stub_to_compiled : Bool)
    (name : Nat) : List Nat :=
  let module := w.name_root name
  if !(w.is_stub module) then [name]
  else
    let name_list := w.name_qualified name
    let contexts :=
      match name_list with
      | none => []
      | some nl => _infer_from_stub w module nl.dropLast prefer_stub_to_compiled
    let truthy := match name_list with | none => false | some nl => !nl.isEmpty
    if !contexts.isEmpty && truthy then
      let new_names := set_goto w contexts ((name_list.getD []).getLastD "")
      if !new_names.isEmpty then new_names else [name]
    else if !contexts.isEmpty then
      contexts.map w.ctx_name
    else [name]

/-- What the loop body of `try_stub_to_actual_names` resolves for one stub
name before the fall-back `yield name`: the goto names of the last qualified
segment, or the names of the resolved contexts when the qualified list is
empty, or nothing. -/
def _stub_name_resolved (w : World) (prefer_stub_to_compiled : Bool)
    (name : Nat) : List Nat :=
  let module := w.name_root name
  let name_list := w.name_qualified name
  let contexts :=
    match name_list with
    | none => []
    | some nl => _infer_from_stub w module nl.dropLast prefer_stub_to_compiled
  let truthy := match name_list with | none => false | some nl => !nl.isEmpty
  if !contexts.isEmpty && truthy then
    set_goto w contexts ((name_list.getD []).getLastD "")
  else if !contexts.isEmpty then
    contexts.map w.ctx_name
  else []

/-- `try_stub_to_actual_names(names, prefer_stub_to_compiled)` (the `@to_list`
wrapper collects the generator into a list). -/
def try_stub_to_actual_names (w : World) (names : List Nat)
    (prefer_stub_to_compiled : Bool) : List Nat :=
  listFlat (names.map (_stub_name_to_actual_list w prefer_stub_to_compiled))

/-- `_load_stub_module(module)`: a stub module is returned as is, anything
else goes through the external stub-loading subsystem. -/
def _load_stub_module (w : World) (module : Nat) : Option Nat :=
  if w.is_stub module then some module
  else w.try_to_load_stub module

/-- `to_stub(context)`: the mirror of `stub_to_actual_context_set`, walking
the qualified names against the loaded stub module. -/
def to_stub (w : World) (context : Nat) : List Nat :=
  if w.is_stub context then [context]
  else
    let was_instance := w.is_instance context
    let context2 := if was_instance then w.py_class context else context
    let qualified_names := w.get_qualified_names context2
    let stub_module := _load_stub_module w (w.get_root_context context2)
    match stub_module, qualified_names with
    | none, _ => []
    | some _, none => []
    | some sm, some qns =>
      let was_bound_method := w.is_bound_method context2
      let method_name := qns.getLastD ""
      let qns2 := if was_bound_method then qns.dropLast else qns
      let was_instance2 := was_instance || was_bound_method
      let stub_contexts := qns2.foldl (fun acc name => set_getattr w acc name) [sm]
      let stub_contexts2 :=
        if was_instance2 then
          from_sets ((stub_contexts.filter (fun c => w.is_class c)).map
            (fun c => w.execute_evaluated c))
        else stub_contexts
      if was_bound_method then set_getattr w stub_contexts2 method_name
      else stub_contexts2

end Conversion

namespace Compiled

/-- A `CompiledObject` of `jedi/evaluate/compiled/context.py`: a context
wrapping an opaque access handle (the handle is identified by a `Nat`; its
reflection operations are external). -/
structure CompiledObject where
  access_handle : Nat

/-- `CompiledObject.is_compiled(self)`: constantly `True`. -/
def CompiledObject.is_compiled (_ : CompiledObject) : Bool := true

/-- `CompiledObject.is_stub(self)`: constantly `False`. -/
def CompiledObject.is_stub (_ : CompiledObject) : Bool := false

/-- A name produced by `CompiledObjectFilter`: either an `EmptyCompiledName`
(the explicitly-empty marker for opaque attributes) or a regular
`CompiledName`. -/
inductive FilterName where
  | emptyName (s : String)
  | compiledName (s : String)
deriving DecidableEq

/-- `infer()` of a filter name: `EmptyCompiledName.infer` returns
`NO_CONTEXTS`; `CompiledName.infer` resolves one context through the external
access-handle machinery (`_create_from_name`), carried as the abstract
`resolve` function. -/
def FilterName.infer (resolve : String → List Nat) : FilterName → List Nat
  | .emptyName _ => []
  | .compiledName s => resolve s

/-- `CompiledObjectFilter` together with the reflection answers of its
compiled object's access handle: `is_allowed_getattr name` is the
`(has_attribute, is_descriptor)` pair and `dir` the member listing. -/
structure CompiledObjectFilter where
  is_allowed_getattr : String → Bool × Bool
  dir : List String
  is_instance : Bool

/-- `CompiledObjectFilter._get(name, allowed_getattr_callback, dir_callback,
check_has_attribute)` (the memoizing `_get_cached_name` only caches object
identity and does not change which names are produced). -/
def filter_get (is_instance : Bool) (allowed : Bool × Bool) (dirNames : List String)
    (check_has_attribute : Bool) (name : String) : List FilterName :=
  let has_attribute := allowed.1
  let is_descriptor := allowed.2
  if check_has_attribute && !has_attribute then []
  else if is_descriptor || !has_attribute then [.emptyName name]
  else if is_instance && !(dirNames.contains name) then []
  else [.compiledName name]

/-- `CompiledObjectFilter.get(name)`: exact lookup, with
`check_has_attribute=True` and the callbacks wired to the access handle. -/
def CompiledObjectFilter.get (f : CompiledObjectFilter) (name : String) :
    List FilterName :=
  filter_get f.is_instance (f.is_allowed_getattr name) f.dir true name

end Compiled

/-- A world in which nothing is a stub: every query answers trivially. -/
def Conversion.trivialWorld : Conversion.World where
  get_root_context := fun c => c
  is_stub := fun _ => false
  is_instance := fun _ => false
  py_class := fun c => c
  get_qualified_names := fun _ => none
  is_bound_method := fun _ => false
  is_class := fun _ => false
  is_compiled := fun _ => true
  non_stub_context_set := fun _ => []
  execute_evaluated := fun _ => []
  getattr := fun _ _ => []
  goto := fun _ _ => []
  ctx_name := fun c => c
  name_root := fun c => c
  name_qualified := fun _ => none
  try_to_load_stub := fun _ => none

/-- A world in which every module is a stub but no qualified names resolve. -/
def Conversion.stubWorld : Conversion.World :=
  { Conversion.trivialWorld with is_stub := fun _ => true }

/-- A filter whose compiled object reports every attribute as an existing
descriptor. -/
def Compiled.descriptorFilter : Compiled.CompiledObjectFilter :=
  ⟨fun _ => (true, true), [], false⟩

/-- A filter whose compiled object reports every attribute as missing. -/
def Compiled.missingFilter : Compiled.CompiledObjectFilter :=
  ⟨fun _ => (false, false), [], false⟩

/-! ### Helper lemmas about the set algebra -/

theorem cunion_nil_left {α : Type} [DecidableEq α] (l : List α) : cunion [] l = l := by
  simp [cunion]

theorem mem_cunion {α : Type} [DecidableEq α] (x : α) (a b : List α) :
    x ∈ cunion a b ↔ x ∈ a ∨ x ∈ b := by
  simp [cunion]
  tauto

theorem mem_foldl_cunion {α : Type} [DecidableEq α] (x : α) (sets : List (List α))
    (init : List α) : x ∈ sets.foldl cunion init ↔ x ∈ init ∨ ∃ s ∈ sets, x ∈ s := by
  induction sets generalizing init with
  | nil => simp
  | cons s rest ih =>
    simp only [List.foldl_cons, ih, mem_cunion, List.mem_cons]
    constructor
    · rintro (⟨h | h⟩ | ⟨t, ht, hx⟩)
      · exact Or.inl h
      · exact Or.inr ⟨s, Or.inl rfl, h⟩
      · exact Or.inr ⟨t, Or.inr ht, hx⟩
    · rintro (h | ⟨t, (rfl | ht), hx⟩)
      · exact Or.inl (Or.inl h)
      · exact Or.inl (Or.inr hx)
      · exact Or.inr ⟨t, ht, hx⟩

theorem mem_from_sets {α : Type} [DecidableEq α] (x : α) (sets : List (List α)) :
    x ∈ from_sets sets ↔ ∃ s ∈ sets, x ∈ s := by
  simp [from_sets, mem_foldl_cunion]

theorem mem_foldl_cunion_singleton {α : Type} [DecidableEq α] (x : α) (l : List α)
    (init : List α) :
    x ∈ l.foldl (fun acc c => cunion acc [c]) init ↔ x ∈ init ∨ x ∈ l := by
  induction l generalizing init with
  | nil => simp
  | cons a rest ih =>
    simp only [List.foldl_cons, ih, mem_cunion, List.mem_singleton, List.mem_cons]
    tauto

theorem mem_dedup {α : Type} [DecidableEq α] (x : α) (l : List α) :
    x ∈ dedup l ↔ x ∈ l := by
  simp [dedup, mem_foldl_cunion_singleton]

theorem mem_listFlat {α : Type} (x : α) (ls : List (List α)) :
    x ∈ listFlat ls ↔ ∃ l ∈ ls, x ∈ l := by
  induction ls with
  | nil => simp [listFlat]
  | cons l rest ih =>
    simp only [listFlat, List.foldr_cons, List.mem_append, List.mem_cons]
    constructor
    · rintro (h | h)
      · exact ⟨l, Or.inl rfl, h⟩
      · obtain ⟨t, ht, hx⟩ := (ih.mp h)
        exact ⟨t, Or.inr ht, hx⟩
    · rintro ⟨t, (rfl | ht), hx⟩
      · exact Or.inl hx
      · exact Or.inr (ih.mpr ⟨t, ht, hx⟩)

/-- Evaluating a 1×1 `calculate` is exactly the single pairwise evaluation. -/
theorem calculate_pair (a b : Precedence.PContext) (op : String) :
    Precedence.calculate [a] op [b] = Precedence._element_calculate a op b := by
  unfold Precedence.calculate
  rw [if_neg (by simp), if_neg (by simp)]
  simp [listFlat, from_sets, cunion_nil_left]

namespace Precedence

/-- C1: for non-empty operand sets, `calculate` skips pairwise combination
whenever `|left| * |right| > 6` and returns the literal-widened union of both
sets (with no diagnostics, hence no pairwise element evaluation), for every
binary operator; with `|left| * |right| <= 6` it instead unions the pairwise
`_element_calculate` results of every (left, right) pair. -/
theorem calculate_cost_bound (L R : List PContext) (op : String)
    (hL : L ≠ []) (hR : R ≠ []) :
    (6 < L.length * R.length →
      calculate L op R = (literals_to_types (cunion L R), [])) ∧
    (L.length * R.length ≤ 6 →
      calculate L op R =
        (from_sets ((listFlat (L.map (fun l => R.map (fun r =>
            _element_calculate l op r)))).map Prod.fst),
         listFlat ((listFlat (L.map (fun l => R.map (fun r =>
            _element_calculate l op r)))).map Prod.snd))) := by
  constructor
  · intro h6
    unfold calculate
    rw [if_neg (by simp [hL, hR]), if_pos h6]
  · intro h6
    unfold calculate
    rw [if_neg (by simp [hL, hR]), if_neg (by omega)]

/-- Witness for C1: 3×3 = 9 > 6 triggers the cost-bound fallback; a 1×1 pair
is evaluated pairwise. -/
theorem calculate_cost_bound_witness :
    calculate [PContext.other 0 none, PContext.other 1 none, PContext.other 2 none] "+"
        [PContext.other 3 none, PContext.other 4 none, PContext.other 5 none] =
      (literals_to_types (cunion
        [PContext.other 0 none, PContext.other 1 none, PContext.other 2 none]
        [PContext.other 3 none, PContext.other 4 none, PContext.other 5 none]), []) ∧
    calculate [PContext.compiled (.int 1)] "+" [PContext.compiled (.int 2)] =
      (from_sets ((listFlat ([PContext.compiled (.int 1)].map (fun l =>
          [PContext.compiled (.int 2)].map (fun r =>
            _element_calculate l "+" r)))).map Prod.fst),
       listFlat ((listFlat ([PContext.compiled (.int 1)].map (fun l =>
          [PContext.compiled (.int 2)].map (fun r =>
            _element_calculate l "+" r)))).map Prod.snd)) :=
  ⟨(calculate_cost_bound _ _ "+" (by decide) (by decide)).1 (by decide),
   (calculate_cost_bound _ _ "+" (by decide) (by decide)).2 (by decide)⟩

/-- C2: if either operand set is empty (an illegal slice operand, which the
code normalizes from `None`), `calculate` returns the literal-widened union of
whatever side is non-empty — the empty set when both are empty — with no
diagnostics and no error; in particular `calculate({}, '+', B)` is
`literals_to_types(B)` for every non-empty `B`. -/
theorem calculate_empty_operand (L R B : List PContext) (op : String)
    (hLR : L = [] ∨ R = []) (_hB : B ≠ []) :
    calculate L op R = (literals_to_types (cunion L R), []) ∧
    calculate [] "+" B = (literals_to_types B, []) := by
  constructor
  · unfold calculate
    rw [if_pos hLR]
  · unfold calculate
    rw [if_pos (Or.inl rfl), cunion_nil_left]

/-- Witness for C2 at concrete inputs. -/
theorem calculate_empty_operand_witness :
    calculate [] "+" [PContext.other 0 none] =
      (literals_to_types (cunion [] [PContext.other 0 none]), []) ∧
    calculate [] "+" [PContext.compiled (.int 3)] =
      (literals_to_types [PContext.compiled (.int 3)], []) :=
  calculate_empty_operand [] [PContext.other 0 none] [PContext.compiled (.int 3)] "+"
    (Or.inl rfl) (by decide)

/-- C3: pairwise `+` combines two literal numbers into the single literal of
their native sum, two literal strings into the single literal of their
concatenation, and two tuples or two lists of the same category into exactly
one merged-sequence marker (`MergedArray`), not an eagerly concatenated
sequence. -/
theorem element_calculate_add (n m : Int) (s t : String) (l r : PContext)
    (h : (_is_tuple l && _is_tuple r || _is_list l && _is_list r) = true) :
    calculate [PContext.compiled (.int n)] "+" [PContext.compiled (.int m)] =
      ([PContext.compiled (.int (n + m))], []) ∧
    calculate [PContext.compiled (.str s)] "+" [PContext.compiled (.str t)] =
      ([PContext.compiled (.str (s ++ t))], []) ∧
    _element_calculate l "+" r = ([PContext.merged l r], []) := by
  refine ⟨?_, ?_, ?_⟩
  · rw [calculate_pair]
    simp [_element_calculate, _is_number, Obj.isNum, pyAdd, PContext.objOf, Obj.asInt]
  · rw [calculate_pair]
    simp [_element_calculate, _is_number, Obj.isNum, is_string, pyAdd, PContext.objOf]
  · have h1 : (_is_number l && _is_number r || is_string l && is_string r) = false := by
      rcases l with _ | _ | _ | _ | _ <;> rcases r with _ | _ | _ | _ | _ <;>
        simp_all [_is_tuple, _is_list, _is_number, is_string]
    simp [_element_calculate, h, h1]

/-- Witness for C3: `{lit(3)} + {lit(4)} = {lit(7)}`,
`{lit("a")} + {lit("b")} = {lit("ab")}`, and two tuples merge. -/
theorem element_calculate_add_witness :
    calculate [PContext.compiled (.int 3)] "+" [PContext.compiled (.int 4)] =
      ([PContext.compiled (.int 7)], []) ∧
    calculate [PContext.compiled (.str "a")] "+" [PContext.compiled (.str "b")] =
      ([PContext.compiled (.str "ab")], []) ∧
    _element_calculate (PContext.seq "tuple") "+" (PContext.seq "tuple") =
      ([PContext.merged (PContext.seq "tuple") (PContext.seq "tuple")], []) := by
  have h := element_calculate_add 3 4 "a" "b" (PContext.seq "tuple") (PContext.seq "tuple")
    (by decide)
  exact ⟨by simpa using h.1, by simpa using h.2.1, h.2.2⟩

/-- C4 counterexample: the claim says that whenever no pairwise rule applies
the evaluation emits exactly one incompatible-operand-types diagnostic.  For
`*` on two literal numbers no pairwise rule applies (`*` only matches a
sequence or string operand), yet the code returns the untouched operands with
NO diagnostic. -/
theorem element_calculate_diag_counterexample :
    _element_calculate (PContext.compiled (.int 3)) "*" (PContext.compiled (.int 4)) =
      ([PContext.compiled (.int 3), PContext.compiled (.int 4)], []) := by decide

/-- C4 amended: whenever no pairwise rule applies to a (left, right) operand
pair — for ANY binary operator — the evaluation returns the union of the two
untouched operands, and it emits exactly one `'type-error-operation'`
diagnostic precisely when the operator is `+` or `-`, exactly one side is a
literal number (a literal string does not count), and neither side is an
uncertain numeric (`int`/`float`) instance; in particular
`{lit(3)} + {lit("b")}` yields both operands unchanged plus exactly one such
diagnostic. -/
theorem element_calculate_diag_amended (l r : PContext) (op : String)
    (h : no_rule_applies l op r = true) :
    _element_calculate l op r =
      (cunion [l] [r],
        if (op = "+" || op = "-") && (_is_number l != _is_number r)
            && !(check l || check r) then
          [typeErrorDiag op]
        else []) ∧
    calculate [PContext.compiled (.int 3)] "+" [PContext.compiled (.str "b")] =
      ([PContext.compiled (.int 3), PContext.compiled (.str "b")],
        [typeErrorDiag "+"]) := by
  refine ⟨?_, by decide⟩
  by_cases hmul : op = "*"
  · subst hmul
    unfold no_rule_applies at h
    rw [if_pos rfl, Bool.and_eq_true] at h
    obtain ⟨hA, hB⟩ := h
    rw [Bool.not_eq_true'] at hA hB
    simp [_element_calculate, hA, hB]
  · by_cases hadd : op = "+"
    · subst hadd
      unfold no_rule_applies at h
      rw [if_neg (show ("+" : String) ≠ "*" by decide), if_pos rfl,
        Bool.and_eq_true] at h
      obtain ⟨hA, hB⟩ := h
      rw [Bool.not_eq_true'] at hA hB
      simp [_element_calculate, hA, hB]
      split <;> rfl
    · by_cases hsub : op = "-"
      · subst hsub
        unfold no_rule_applies at h
        rw [if_neg (show ("-" : String) ≠ "*" by decide),
          if_neg (show ("-" : String) ≠ "+" by decide), if_pos rfl,
          Bool.not_eq_true'] at h
        simp [_element_calculate, h]
        split <;> rfl
      · by_cases hmod : op = "%"
        · subst hmod
          simp [no_rule_applies] at h
        · by_cases hcmp : COMPARISON_OPERATORS.contains op = true
          · exfalso
            unfold no_rule_applies at h
            rw [if_neg hmul, if_neg hadd, if_neg hsub, if_neg hmod, if_pos hcmp] at h
            exact absurd h (by decide)
          · by_cases hin : op = "in"
            · subst hin
              simp [no_rule_applies] at h
            · have hmem : op ∉ COMPARISON_OPERATORS := by simpa using hcmp
              simp [_element_calculate, hmul, hadd, hsub, hmod, hmem, hin]

/-- Witness for C4 amended at the `{lit(3)} + {lit("b")}` input. -/
theorem element_calculate_diag_amended_witness :
    _element_calculate (PContext.compiled (.int 3)) "+" (PContext.compiled (.str "b")) =
      (cunion [PContext.compiled (.int 3)] [PContext.compiled (.str "b")],
        if (("+" : String) = "+" || ("+" : String) = "-")
            && (_is_number (PContext.compiled (.int 3)) != _is_number (PContext.compiled (.str "b")))
            && !(check (PContext.compiled (.int 3)) || check (PContext.compiled (.str "b"))) then
          [typeErrorDiag "+"]
        else []) ∧
    calculate [PContext.compiled (.int 3)] "+" [PContext.compiled (.str "b")] =
      ([PContext.compiled (.int 3), PContext.compiled (.str "b")], [typeErrorDiag "+"]) :=
  element_calculate_diag_amended (PContext.compiled (.int 3)) (PContext.compiled (.str "b"))
    "+" (by decide)

/-- C5: for every comparison operator, a pairwise evaluation of two compiled
literal objects whose native comparison succeeds returns exactly the single
literal wrapping the native boolean result; whenever the native comparison
raises (`TypeError`), the result is exactly the two-element set
`{lit(True), lit(False)}` and no exception reaches the caller. -/
theorem element_calculate_comparison (op : String) (a b : Obj) (l r : PContext)
    (bb : Bool) (hop : op ∈ COMPARISON_OPERATORS) :
    (objCompare op a b = some bb →
      _element_calculate (PContext.compiled a) op (PContext.compiled b) =
        ([PContext.compiled (.bool bb)], [])) ∧
    (nativeCompare op l r = none →
      _element_calculate l op r =
        ([PContext.compiled (.bool true), PContext.compiled (.bool false)], [])) := by
  simp only [COMPARISON_OPERATORS, List.mem_cons, List.not_mem_nil, or_false] at hop
  rcases hop with rfl | rfl | rfl | rfl | rfl | rfl | rfl | rfl <;>
    exact ⟨fun h => by simp [_element_calculate, COMPARISON_OPERATORS, nativeCompare, h],
           fun h => by simp [_element_calculate, COMPARISON_OPERATORS, h, cunion]⟩

/-- Witness for C5: `3 == 3` yields `{lit(True)}`; ordering a number against
a string raises natively and yields `{lit(True), lit(False)}`. -/
theorem element_calculate_comparison_witness :
    _element_calculate (PContext.compiled (.int 3)) "==" (PContext.compiled (.int 3)) =
      ([PContext.compiled (.bool true)], []) ∧
    _element_calculate (PContext.compiled (.int 3)) "<" (PContext.compiled (.str "a")) =
      ([PContext.compiled (.bool true), PContext.compiled (.bool false)], []) :=
  ⟨(element_calculate_comparison "==" (.int 3) (.int 3) (PContext.other 0 none)
      (PContext.other 0 none) true (by decide)).1 (by decide),
   (element_calculate_comparison "<" (.int 0) (.int 0) (PContext.compiled (.int 3))
      (PContext.compiled (.str "a")) true (by decide)).2 (by decide)⟩

/-- Operators other than `-` and `not` pass every operand through the
generator unchanged. -/
theorem factor_calculate_list_id (types : List PContext) (op : String)
    (h1 : op ≠ "-") (h2 : op ≠ "not") :
    factor_calculate_list types op = types := by
  induction types with
  | nil => rfl
  | cons t rest ih => simp [factor_calculate_list, h1, h2, ih]

/-- C9 counterexample: the claim says `factor_calculate` behaves per operand,
with an unknown-truth operand yielding nothing *for that operand* under
`not`.  On the operand set `{uncertain, lit(True)}` enumerated with the
uncertain operand first, the per-operand reading requires `lit(False)` (from
the second operand) in the result, but the code's bare `return` aborts the
whole generator and the result is empty. -/
theorem factor_calculate_not_counterexample :
    factor_calculate [PContext.other 0 none, PContext.compiled (.bool true)] "not" = [] ∧
    ¬ PContext.compiled (.bool false) ∈
        factor_calculate [PContext.other 0 none, PContext.compiled (.bool true)] "not" := by
  decide

/-- C9 amended: per operand — at any position in the enumerated operand set —
unary `-` on a literal number yields the literal of its native negation and
continues, while a non-number operand yields nothing under `-` and
evaluation continues (so the negated literal is a member of the result set
whatever the remaining operands are); `not` on an operand of known truth
yields the negated literal boolean and continues; `not` on an operand of
unknown truth stops the evaluation — that operand AND all remaining operands
yield nothing; every other unary operator passes the operands through
unchanged. -/
theorem factor_calculate_rules (nn : Int) (v t u : PContext) (rest : List PContext)
    (b : Bool) (types : List PContext) (op : String)
    (hv : _is_number v = false)
    (ht : t.py__bool__ = some b) (hu : u.py__bool__ = none)
    (h1 : op ≠ "-") (h2 : op ≠ "not") :
    factor_calculate_list (PContext.compiled (.int nn) :: rest) "-" =
      PContext.compiled (.int (-nn)) :: factor_calculate_list rest "-" ∧
    factor_calculate_list (v :: rest) "-" = factor_calculate_list rest "-" ∧
    PContext.compiled (.int (-nn)) ∈
      factor_calculate (PContext.compiled (.int nn) :: rest) "-" ∧
    factor_calculate_list (t :: rest) "not" =
      PContext.compiled (.bool (!b)) :: factor_calculate_list rest "not" ∧
    factor_calculate_list (u :: rest) "not" = [] ∧
    factor_calculate types op = dedup types := by
  have hcons : factor_calculate_list (PContext.compiled (.int nn) :: rest) "-" =
      PContext.compiled (.int (-nn)) :: factor_calculate_list rest "-" := by
    simp [factor_calculate_list, _is_number, Obj.isNum, PContext.objOf, Obj.asInt]
  refine ⟨hcons, ?_, ?_, ?_, ?_, ?_⟩
  · simp [factor_calculate_list, hv]
  · rw [factor_calculate, mem_dedup, hcons]
    exact List.mem_cons_self _ _
  · simp [factor_calculate_list, ht]
  · simp [factor_calculate_list, hu]
  · rw [factor_calculate, factor_calculate_list_id types op h1 h2]

/-- Witness for C9 amended at concrete operands: `-` over the two-element set
`{lit(3), tuple}` in both enumeration orders, `not` over a known and over an
unknown truth value, and pass-through for `~`. -/
theorem factor_calculate_rules_witness :
    factor_calculate_list [PContext.compiled (.int 3), PContext.seq "tuple"] "-" =
      [PContext.compiled (.int (-3))] ∧
    factor_calculate_list [PContext.seq "tuple", PContext.compiled (.int 3)] "-" =
      [PContext.compiled (.int (-3))] ∧
    PContext.compiled (.int (-3)) ∈
      factor_calculate [PContext.compiled (.int 3), PContext.seq "tuple"] "-" ∧
    factor_calculate_list [PContext.compiled (.bool true)] "not" =
      [PContext.compiled (.bool false)] ∧
    factor_calculate_list [PContext.other 0 none, PContext.compiled (.bool true)] "not" = [] ∧
    factor_calculate [PContext.compiled (.int 3), PContext.seq "tuple"] "~" =
      dedup [PContext.compiled (.int 3), PContext.seq "tuple"] := by
  have h := factor_calculate_rules 3 (PContext.seq "tuple") (PContext.compiled (.bool true))
    (PContext.other 0 none) [PContext.seq "tuple"] true
    [PContext.compiled (.int 3), PContext.seq "tuple"] "~"
    (by decide) (by decide) (by decide) (by decide) (by decide)
  have hrev := factor_calculate_rules 3 (PContext.seq "tuple") (PContext.compiled (.bool true))
    (PContext.other 0 none) [PContext.compiled (.int 3)] true [] "~"
    (by decide) (by decide) (by decide) (by decide) (by decide)
  have hnot := factor_calculate_rules 3 (PContext.seq "tuple") (PContext.compiled (.bool true))
    (PContext.other 0 none) [] true [] "~"
    (by decide) (by decide) (by decide) (by decide) (by decide)
  have hu := factor_calculate_rules 3 (PContext.seq "tuple") (PContext.compiled (.bool true))
    (PContext.other 0 none) [PContext.compiled (.bool true)] true [] "~"
    (by decide) (by decide) (by decide) (by decide) (by decide)
  refine ⟨by simpa using h.1, ?_, h.2.2.1, by simpa using hnot.2.2.2.1,
    hu.2.2.2.2.1, h.2.2.2.2.2⟩
  rw [hrev.2.1]
  simpa using hnot.1

end Precedence

namespace Conversion

/-- C6: `stub_to_actual_context_set(c)` returns exactly `{c}` whenever the
root module of `c` is not a stub, and `to_stub(c)` returns exactly `{c}`
whenever `c` is already a stub — identity in both directions. -/
theorem stub_conversion_identity (w : World) (c : Nat) (ig : Bool) :
    (w.is_stub (w.get_root_context c) = false →
      stub_to_actual_context_set w c ig = [c]) ∧
    (w.is_stub c = true → to_stub w c = [c]) := by
  constructor
  · intro h
    simp [stub_to_actual_context_set, h]
  · intro h
    simp [to_stub, h]

/-- Witness for C6 in concrete worlds. -/
theorem stub_conversion_identity_witness :
    stub_to_actual_context_set trivialWorld 0 false = [0] ∧
    to_stub stubWorld 5 = [5] :=
  ⟨(stub_conversion_identity trivialWorld 0 false).1 rfl,
   (stub_conversion_identity stubWorld 5 false).2 rfl⟩

/-- Per-element fallback of `try_stubs_to_actual_context_set` is never
empty. -/
theorem try_stub_elem_ne_nil (w : World) (p : Bool) (c : Nat) :
    (let r := stub_to_actual_context_set w c p
     if r = [] then [c] else r) ≠ [] := by
  dsimp only
  split <;> simp_all

/-- Every name contributes at least one element to
`try_stub_to_actual_names`. -/
theorem stub_name_list_ne_nil (w : World) (p : Bool) (n : Nat) :
    _stub_name_to_actual_list w p n ≠ [] := by
  simp only [_stub_name_to_actual_list]
  split
  · simp
  · split
    · split
      · rename_i hne
        rw [Bool.not_eq_true', List.isEmpty_eq_false] at hne
        exact hne
      · simp
    · split
      · rename_i hc
        rw [Bool.not_eq_true', List.isEmpty_eq_false] at hc
        simp [hc]
      · simp

/-- If one name's fallback-free resolution is empty, the loop body yields the
original name back. -/
theorem stub_name_list_of_resolved_nil (w : World) (p : Bool) (n : Nat)
    (h : _stub_name_resolved w p n = []) :
    _stub_name_to_actual_list w p n = [n] := by
  simp only [_stub_name_resolved] at h
  simp only [_stub_name_to_actual_list]
  split
  · rfl
  · split
    · rename_i hcond
      rw [if_pos hcond] at h
      rw [h]
      simp
    · rename_i hcond
      rw [if_neg hcond] at h
      split
      · rename_i hc
        rw [if_pos hc] at h
        rw [Bool.not_eq_true', List.isEmpty_eq_false] at hc
        exact absurd (List.map_eq_nil_iff.mp h) hc
      · rfl

/-- C7: for every non-empty input, the tolerant wrappers
`try_stubs_to_actual_context_set` and `try_stub_to_actual_names` never return
an empty result; every stub context whose actual-side resolution is empty
contributes itself to the output, and every stub name whose fallback-free
resolution is empty contributes the original name. -/
theorem try_stub_wrappers_tolerant (w : World) (p : Bool) (cs : List Nat) (c : Nat)
    (ns : List Nat) (n : Nat) :
    (cs ≠ [] → try_stubs_to_actual_context_set w cs p ≠ []) ∧
    (c ∈ cs → stub_to_actual_context_set w c p = [] →
      c ∈ try_stubs_to_actual_context_set w cs p) ∧
    (ns ≠ [] → try_stub_to_actual_names w ns p ≠ []) ∧
    (n ∈ ns → _stub_name_resolved w p n = [] →
      n ∈ try_stub_to_actual_names w ns p) := by
  refine ⟨?_, ?_, ?_, ?_⟩
  · intro hcs
    obtain ⟨c0, rest, rfl⟩ := List.exists_cons_of_ne_nil hcs
    intro hempty
    have hne := try_stub_elem_ne_nil w p c0
    obtain ⟨x, hx⟩ := List.exists_mem_of_ne_nil _ hne
    have : x ∈ try_stubs_to_actual_context_set w (c0 :: rest) p := by
      unfold try_stubs_to_actual_context_set
      rw [mem_from_sets]
      exact ⟨_, List.mem_map_of_mem _ (List.mem_cons_self c0 rest), hx⟩
    rw [hempty] at this
    exact absurd this (List.not_mem_nil x)
  · intro hc hempty
    unfold try_stubs_to_actual_context_set
    rw [mem_from_sets]
    refine ⟨_, List.mem_map_of_mem _ hc, ?_⟩
    simp only [hempty, if_pos]
    exact List.mem_singleton.mpr rfl
  · intro hns
    obtain ⟨n0, rest, rfl⟩ := List.exists_cons_of_ne_nil hns
    intro hempty
    have hne := stub_name_list_ne_nil w p n0
    obtain ⟨x, hx⟩ := List.exists_mem_of_ne_nil _ hne
    have : x ∈ try_stub_to_actual_names w (n0 :: rest) p := by
      unfold try_stub_to_actual_names
      rw [mem_listFlat]
      exact ⟨_, List.mem_map_of_mem _ (List.mem_cons_self n0 rest), hx⟩
    rw [hempty] at this
    exact absurd this (List.not_mem_nil x)
  · intro hn hres
    unfold try_stub_to_actual_names
    rw [mem_listFlat]
    refine ⟨_, List.mem_map_of_mem _ hn, ?_⟩
    rw [stub_name_list_of_resolved_nil w p n hres]
    exact List.mem_singleton.mpr rfl

/-- Witness for C7 in a world where every module is a stub and nothing
resolves. -/
theorem try_stub_wrappers_tolerant_witness :
    try_stubs_to_actual_context_set stubWorld [1] false ≠ [] ∧
    1 ∈ try_stubs_to_actual_context_set stubWorld [1] false ∧
    try_stub_to_actual_names stubWorld [2] false ≠ [] ∧
    2 ∈ try_stub_to_actual_names stubWorld [2] false :=
  ⟨(try_stub_wrappers_tolerant stubWorld false [1] 1 [2] 2).1 (by decide),
   (try_stub_wrappers_tolerant stubWorld false [1] 1 [2] 2).2.1 (by decide) (by decide),
   (try_stub_wrappers_tolerant stubWorld false [1] 1 [2] 2).2.2.1 (by decide),
   (try_stub_wrappers_tolerant stubWorld false [1] 1 [2] 2).2.2.2 (by decide) (by decide)⟩

end Conversion

namespace Compiled

/-- C8: exact attribute lookup on a compiled object
(`CompiledObjectFilter.get`, i.e. `check_has_attribute` mode): a missing
attribute gives the empty list; an existing attribute flagged as a descriptor
gives exactly one `EmptyCompiledName` marker whose `infer()` is the empty
context set — and no exception in either case. -/
theorem compiled_filter_get (f : CompiledObjectFilter) (name : String)
    (resolve : String → List Nat) :
    ((f.is_allowed_getattr name).1 = false → f.get name = []) ∧
    ((f.is_allowed_getattr name).1 = true → (f.is_allowed_getattr name).2 = true →
      f.get name = [FilterName.emptyName name] ∧
      FilterName.infer resolve (FilterName.emptyName name) = []) := by
  constructor
  · intro h
    unfold CompiledObjectFilter.get filter_get
    simp [h]
  · intro h1 h2
    refine ⟨?_, rfl⟩
    unfold CompiledObjectFilter.get filter_get
    simp [h1, h2]

/-- Witness for C8 on concrete filters. -/
theorem compiled_filter_get_witness :
    missingFilter.get "x" = [] ∧
    descriptorFilter.get "x" = [FilterName.emptyName "x"] ∧
    FilterName.infer (fun _ => []) (FilterName.emptyName "x") = [] :=
  ⟨(compiled_filter_get missingFilter "x" (fun _ => [])).1 rfl,
   ((compiled_filter_get descriptorFilter "x" (fun _ => [])).2 rfl rfl).1,
   ((compiled_filter_get descriptorFilter "x" (fun _ => [])).2 rfl rfl).2⟩

/-- C10: every `CompiledObject` reports `is_compiled() = True` and
`is_stub() = False`, whatever its access handle; consequently a context whose
root module reports `is_stub` as a compiled module does is returned unchanged
by `stub_to_actual_context_set`. -/
theorem compiled_never_stub (o : CompiledObject) (w : Conversion.World) (c : Nat)
    (ig : Bool) :
    o.is_compiled = true ∧ o.is_stub = false ∧
    (w.is_stub (w.get_root_context c) = o.is_stub →
      Conversion.stub_to_actual_context_set w c ig = [c]) := by
  refine ⟨rfl, rfl, fun h => ?_⟩
  rw [CompiledObject.is_stub] at h
  simp [Conversion.stub_to_actual_context_set, h]

/-- Witness for C10: a compiled object over any handle, and a world whose
root modules are compiled. -/
theorem compiled_never_stub_witness :
    CompiledObject.is_compiled ⟨0⟩ = true ∧
    CompiledObject.is_stub ⟨0⟩ = false ∧
    Conversion.stub_to_actual_context_set Conversion.trivialWorld 7 false = [7] :=
  ⟨(compiled_never_stub ⟨0⟩ Conversion.trivialWorld 7 false).1,
   (compiled_never_stub ⟨0⟩ Conversion.trivialWorld 7 false).2.1,
   (compiled_never_stub ⟨0⟩ Conversion.trivialWorld 7 false).2.2 rfl⟩

end Compiled

end Jedi
